import Mathlib

/-!
Verification of the retrieval-graph workflow
(src/backend/src/retrieval_graph/graph.ts).

The TypeScript module is a small RAG workflow: a router node classifies a
query, a conditional edge dispatches on the resulting `route` field, and the
two branches (retrieval followed by generation, or a direct answer) append
conversation turns to the state.  The external collaborators (chat model,
retriever, prompt templates, document formatter) are opaque in the source, so
they appear here as function parameters.  Everything below is a shallow
embedding of graph.ts; machine-level concerns do not arise (the code is pure
list/string manipulation around awaited external calls).
-/

namespace RetrievalGraph

/-- A conversation turn (langchain `BaseMessage`): the role tag returned by
`_getType()` (an arbitrary string on input), the text content, and the
`additional_kwargs` side-channel metadata, modelled as an association list
with string keys (JavaScript objects have one value per key). -/
structure Msg where
  msgType : String
  content : String
  additionalKwargs : List (String × String)
deriving DecidableEq, Repr

/-- Embeds `new HumanMessage({content, additional_kwargs})`. -/
def humanMessage (content : String) (kwargs : List (String × String)) : Msg :=
  { msgType := "human", content := content, additionalKwargs := kwargs }

/-- Embeds `new AIMessage({content, additional_kwargs})`. -/
def aiMessage (content : String) (kwargs : List (String × String)) : Msg :=
  { msgType := "ai", content := content, additionalKwargs := kwargs }

/-- The body of the `messages.map(...)` lambda in `normalizeMessages`
(graph.ts lines 21-46): copy `additional_kwargs`, delete the `name` key,
then rebuild the message as a `HumanMessage` when the type is `human`, an
`AIMessage` when it is `ai`, and a `HumanMessage` otherwise.  `delete
additionalKwargs.name` removes the (unique) `name` key of the JavaScript
object, embedded as filtering the association list. -/
def normalizeMessage (message : Msg) : Msg :=
  let additionalKwargs := message.additionalKwargs.filter (fun p => p.fst ≠ "name")
  if message.msgType = "human" then
    { msgType := "human", content := message.content, additionalKwargs := additionalKwargs }
  else if message.msgType = "ai" then
    { msgType := "ai", content := message.content, additionalKwargs := additionalKwargs }
  else
    { msgType := "human", content := message.content, additionalKwargs := additionalKwargs }

/-- Source function `normalizeMessages` (graph.ts lines 20-47): map the normalizer over the
message list. -/
def normalizeMessages (messages : List Msg) : List Msg :=
  messages.map normalizeMessage

/-- A retrieved document (langchain `Document`): opaque page content plus the
metadata fields the graph reads.  `source` and `filename` are string metadata
entries (`none` = absent); `pageNumber` is the numeric `loc.pageNumber`
(`none` = `loc` or `pageNumber` absent/null). -/
structure Doc where
  pageContent : String
  source : Option String
  filename : Option String
  pageNumber : Option Int
deriving DecidableEq, Repr

/-- JavaScript `a || b` on an optional string `a`: absent, null and the empty
string are falsy and fall through to `b`. -/
def truthyOr (a : Option String) (b : String) : String :=
  match a with
  | none => b
  | some s => if s = "" then b else s

/-- The source component of the deduplication key (graph.ts lines 117-118):
`doc.metadata?.source || doc.metadata?.filename || 'unknown-source'`. -/
def sourceComp (doc : Doc) : String :=
  truthyOr doc.source (truthyOr doc.filename "unknown-source")

/-- The page component of the deduplication key (graph.ts line 119):
`doc.metadata?.loc?.pageNumber ?? 'unknown-page'`, stringified by the template
literal; `??` keeps any non-nullish number, including `0`. -/
def pageComp (doc : Doc) : String :=
  match doc.pageNumber with
  | none => "unknown-page"
  | some n => toString n

/-- The deduplication key (graph.ts line 120): `` `${source}::${page}` ``. -/
def docKey (doc : Doc) : String :=
  sourceComp doc ++ "::" ++ pageComp doc

/-- The (source, page) document identity of the specification, section 3. -/
def docIdentity (doc : Doc) : String × String :=
  (sourceComp doc, pageComp doc)

/-- The `response.filter(...)` loop of `retrieveDocuments` (graph.ts lines
115-126) with its mutable `seen : Set<string>` made an explicit accumulator:
a document whose key is already in `seen` is dropped, otherwise it is kept
and its key is added to `seen`. -/
def uniqueDocuments (seen : List String) : List Doc → List Doc
  | [] => []
  | doc :: docs =>
    if docKey doc ∈ seen then uniqueDocuments seen docs
    else doc :: uniqueDocuments (docKey doc :: seen) docs

/-- Source function `retrieveDocuments` (graph.ts lines 108-129): invoke the (opaque)
retriever on the query, then deduplicate starting from an empty `seen` set;
the result is the node's `documents` update. -/
def retrieveDocuments (retrieve : String → List Doc) (query : String) : List Doc :=
  uniqueDocuments [] (retrieve query)

/-- The two error kinds thrown by the conditional edge. -/
inductive RouteError where
  | routeNotSet
  | invalidRoute
deriving DecidableEq, Repr

/-- Source function `routeQuery` (graph.ts lines 91-106): `if (!route) throw 'Route is not
set'` — JavaScript `!route` is true for undefined/null (`none`) and for the
empty string; then `retrieve` and `direct` select their nodes and anything
else throws `Invalid route`. -/
def routeQuery (route : Option String) : Except RouteError String :=
  match route with
  | none => Except.error RouteError.routeNotSet
  | some r =>
    if r = "" then Except.error RouteError.routeNotSet
    else if r = "retrieve" then Except.ok "retrieveDocuments"
    else if r = "direct" then Except.ok "directAnswer"
    else Except.error RouteError.invalidRoute

/-- The chat-model invocation interface: a message history in, one response
turn out (opaque external collaborator). -/
def ChatModel : Type := List Msg → Msg

/-- Source function `answerQueryDirectly` (graph.ts lines 79-89): build a human turn from the
raw query, invoke the model on the normalized single-turn history, and return
the messages update `[userHumanMessage, response]`. -/
def answerQueryDirectly (model : ChatModel) (query : String) : List Msg :=
  let userHumanMessage := humanMessage query []
  let response := model (normalizeMessages [userHumanMessage])
  [userHumanMessage, response]

/-- The workflow state threaded through the graph (spec section 3). -/
structure AgentState where
  query : String
  route : Option String
  documents : List Doc
  messages : List Msg
deriving DecidableEq, Repr

/-- Modelled from the spec: the state annotation (state.js, not among the
sources) reduces a node's `messages` update by appending the returned turns
to the existing history — "messages (ordered sequence of Conversation Turn,
appended to by terminal nodes)". -/
def applyMessagesUpdate (state : AgentState) (update : List Msg) : AgentState :=
  { state with messages := state.messages ++ update }

/-- Source function `generateResponse` (graph.ts lines 131-160): format the documents into a
context block, render the response prompt with the query and the context,
build the model input as the normalized prior history plus one human turn
holding the rendered prompt, invoke the model, and return the messages update
`[userHumanMessage, response]`.  The first component of the result is the
message history actually passed to `model.invoke`, the second is the update. -/
def generateResponse (model : ChatModel) (render : String → String → String)
    (formatDocs : List Doc → String) (state : AgentState) : List Msg × List Msg :=
  let context := formatDocs state.documents
  let formattedPrompt := render state.query context
  let userHumanMessage := humanMessage state.query []
  let formattedPromptMessage := humanMessage formattedPrompt []
  let messageHistory := normalizeMessages (state.messages ++ [formattedPromptMessage])
  let response := model messageHistory
  (messageHistory, [userHumanMessage, response])

/-- The validated `route` enumeration of the router schema
(`z.enum(['retrieve', 'direct'])`). -/
inductive Route where
  | retrieve
  | direct
deriving DecidableEq, Repr

/-- The structured router response (graph.ts lines 56-59): the schema
`z.object({ route: z.enum(['retrieve', 'direct']), directAnswer:
z.string().optional() })`. -/
structure RouterResponse where
  route : Route
  directAnswer : Option String
deriving DecidableEq, Repr

/-- The state update returned by the router node. -/
structure RouteUpdate where
  route : Route
deriving DecidableEq, Repr

/-- Source function `checkQueryType` (graph.ts lines 49-77), as a function of the structured
response obtained from the model: `const route = response.route; return
{ route }` — the `directAnswer` field is never read. -/
def checkQueryType (response : RouterResponse) : RouteUpdate :=
  { route := response.route }

/-! ### String facts: the `${source}::${page}` key determines the
(source, page) identity, because the page component never contains `:`. -/

lemma string_ext_of_data {a b : String} (h : a.data = b.data) : a = b := by
  cases a; cases b; simp only at h; rw [h]

lemma digitChar_ne_colon (n : Nat) : Nat.digitChar n ≠ ':' := by
  by_cases h : n < 16
  · interval_cases n <;> decide
  · have hb : 16 ≤ n := Nat.le_of_not_lt h
    have h0 : n ≠ 0 := by omega
    have h1 : n ≠ 1 := by omega
    have h2 : n ≠ 2 := by omega
    have h3 : n ≠ 3 := by omega
    have h4 : n ≠ 4 := by omega
    have h5 : n ≠ 5 := by omega
    have h6 : n ≠ 6 := by omega
    have h7 : n ≠ 7 := by omega
    have h8 : n ≠ 8 := by omega
    have h9 : n ≠ 9 := by omega
    have ha : n ≠ 10 := by omega
    have hbb : n ≠ 11 := by omega
    have hc : n ≠ 12 := by omega
    have hd : n ≠ 13 := by omega
    have he : n ≠ 14 := by omega
    have hf : n ≠ 15 := by omega
    have e : Nat.digitChar n = '*' := by
      simp [Nat.digitChar, h0, h1, h2, h3, h4, h5, h6, h7, h8, h9, ha, hbb, hc, hd, he, hf]
    rw [e]; decide

lemma toDigitsCore_mem (b : Nat) :
    ∀ (f n : Nat) (acc : List Char) (c : Char),
      c ∈ Nat.toDigitsCore b f n acc → c ∈ acc ∨ ∃ m, c = Nat.digitChar m := by
  intro f
  induction f with
  | zero => intro n acc c h; exact Or.inl (by simpa [Nat.toDigitsCore] using h)
  | succ f ih =>
    intro n acc c h
    simp only [Nat.toDigitsCore] at h
    split at h
    · rcases List.mem_cons.mp h with h1 | h1
      · exact Or.inr ⟨n % b, h1⟩
      · exact Or.inl h1
    · rcases ih _ _ _ h with h1 | h1
      · rcases List.mem_cons.mp h1 with h2 | h2
        · exact Or.inr ⟨n % b, h2⟩
        · exact Or.inl h2
      · exact Or.inr h1

lemma natRepr_no_colon (n : Nat) : ':' ∉ (Nat.repr n).data := by
  intro h
  have h2 : ':' ∈ Nat.toDigitsCore 10 (n + 1) n [] := by
    simpa [Nat.repr, Nat.toDigits] using h
  rcases toDigitsCore_mem 10 (n + 1) n [] ':' h2 with h3 | ⟨m, h3⟩
  · simp at h3
  · exact digitChar_ne_colon m h3.symm

lemma intToString_no_colon (n : Int) : ':' ∉ (toString n).data := by
  cases n with
  | ofNat m => exact natRepr_no_colon m
  | negSucc m =>
    intro h
    have e : (toString (Int.negSucc m)).data = '-' :: (Nat.repr (m + 1)).data := by
      show (("-" : String) ++ Nat.repr (m + 1)).data = _
      rw [String.data_append]
      rfl
    rw [e] at h
    rcases List.mem_cons.mp h with h1 | h1
    · exact absurd h1 (by decide)
    · exact natRepr_no_colon (m + 1) h1

lemma pageComp_no_colon (doc : Doc) : ':' ∉ (pageComp doc).data := by
  cases hp : doc.pageNumber with
  | none => simp only [pageComp, hp]; decide
  | some n => simpa only [pageComp, hp] using intToString_no_colon n

lemma splitFirst {α : Type} (c : α) :
    ∀ (a1 a2 t1 t2 : List α), c ∉ a1 → c ∉ a2 →
      a1 ++ c :: t1 = a2 ++ c :: t2 → a1 = a2 ∧ t1 = t2 := by
  intro a1
  induction a1 with
  | nil =>
    intro a2 t1 t2 _ hc2 h
    cases a2 with
    | nil => simpa using h
    | cons x a2 =>
      simp only [List.nil_append, List.cons_append, List.cons.injEq] at h
      exact (hc2 (by rw [← h.1]; exact List.mem_cons_self c a2)).elim
  | cons x a1 ih =>
    intro a2 t1 t2 hc1 hc2 h
    cases a2 with
    | nil =>
      simp only [List.cons_append, List.nil_append, List.cons.injEq] at h
      exact (hc1 (by rw [h.1]; exact List.mem_cons_self c a1)).elim
    | cons y a2 =>
      simp only [List.cons_append, List.cons.injEq] at h
      obtain ⟨hxy, h2⟩ := h
      obtain ⟨ha, ht⟩ := ih a2 t1 t2 (fun hm => hc1 (List.mem_cons_of_mem x hm))
        (fun hm => hc2 (List.mem_cons_of_mem y hm)) h2
      exact ⟨by rw [hxy, ha], ht⟩

lemma append_sep_inj {s1 p1 s2 p2 : List Char}
    (h1 : ':' ∉ p1) (h2 : ':' ∉ p2)
    (h : s1 ++ (':' :: ':' :: p1) = s2 ++ (':' :: ':' :: p2)) : s1 = s2 ∧ p1 = p2 := by
  have hrev : p1.reverse ++ ':' :: (':' :: s1.reverse)
      = p2.reverse ++ ':' :: (':' :: s2.reverse) := by
    have h' := congrArg List.reverse h
    simpa [List.reverse_append] using h'
  obtain ⟨hp, ht⟩ := splitFirst ':' p1.reverse p2.reverse _ _
    (by simpa using h1) (by simpa using h2) hrev
  have hp' : p1 = p2 := by
    have h' := congrArg List.reverse hp
    simpa using h'
  have hs : s1 = s2 := by
    simp only [List.cons.injEq, true_and] at ht
    have h' := congrArg List.reverse ht
    simpa using h'
  exact ⟨hs, hp'⟩

lemma docKey_data (doc : Doc) :
    (docKey doc).data = (sourceComp doc).data ++ (':' :: ':' :: (pageComp doc).data) := by
  show (sourceComp doc ++ "::" ++ pageComp doc).data = _
  rw [String.data_append, String.data_append, List.append_assoc]
  rfl

lemma docIdentity_eq_iff (d1 d2 : Doc) :
    docIdentity d1 = docIdentity d2 ↔ docKey d1 = docKey d2 := by
  constructor
  · intro h
    have h1 : sourceComp d1 = sourceComp d2 := congrArg Prod.fst h
    have h2 : pageComp d1 = pageComp d2 := congrArg Prod.snd h
    simp only [docKey, h1, h2]
  · intro h
    have hdata := congrArg String.data h
    rw [docKey_data, docKey_data] at hdata
    obtain ⟨hs, hp⟩ := append_sep_inj (pageComp_no_colon d1) (pageComp_no_colon d2) hdata
    simp only [docIdentity, Prod.mk.injEq]
    exact ⟨string_ext_of_data hs, string_ext_of_data hp⟩

/-! ### Deduplication lemmas -/

lemma uniqueDocuments_sublist (seen : List String) (docs : List Doc) :
    (uniqueDocuments seen docs).Sublist docs := by
  induction docs generalizing seen with
  | nil => simp [uniqueDocuments]
  | cons d ds ih =>
    simp only [uniqueDocuments]
    split
    · exact (ih seen).cons d
    · exact (ih (docKey d :: seen)).cons₂ d

lemma uniqueDocuments_key_not_seen (seen : List String) (docs : List Doc) (d : Doc)
    (hd : d ∈ uniqueDocuments seen docs) : docKey d ∉ seen := by
  induction docs generalizing seen with
  | nil => simp [uniqueDocuments] at hd
  | cons d0 ds ih =>
    by_cases hk : docKey d0 ∈ seen
    · rw [show uniqueDocuments seen (d0 :: ds) = uniqueDocuments seen ds by
        simp [uniqueDocuments, hk]] at hd
      exact ih seen hd
    · rw [show uniqueDocuments seen (d0 :: ds)
          = d0 :: uniqueDocuments (docKey d0 :: seen) ds by
        simp [uniqueDocuments, hk]] at hd
      rcases List.mem_cons.mp hd with h | h
      · rw [h]; exact hk
      · intro hs
        exact ih (docKey d0 :: seen) h (List.mem_cons_of_mem _ hs)

lemma uniqueDocuments_nodup_keys (seen : List String) (docs : List Doc) :
    ((uniqueDocuments seen docs).map docKey).Nodup := by
  induction docs generalizing seen with
  | nil => simp [uniqueDocuments]
  | cons d0 ds ih =>
    by_cases hk : docKey d0 ∈ seen
    · simpa [uniqueDocuments, hk] using ih seen
    · simp only [uniqueDocuments, if_neg hk, List.map_cons, List.nodup_cons]
      refine ⟨?_, ih (docKey d0 :: seen)⟩
      intro hmem
      rcases List.mem_map.mp hmem with ⟨d, hd, hkey⟩
      exact uniqueDocuments_key_not_seen _ _ _ hd (hkey ▸ List.mem_cons_self _ _)

lemma uniqueDocuments_covers (seen : List String) (docs : List Doc) (d : Doc)
    (hd : d ∈ docs) (hs : docKey d ∉ seen) :
    docKey d ∈ (uniqueDocuments seen docs).map docKey := by
  induction docs generalizing seen with
  | nil => simp at hd
  | cons d0 ds ih =>
    by_cases hk : docKey d0 ∈ seen
    · rcases List.mem_cons.mp hd with h | h
      · exact absurd (by rw [h]; exact hk) hs
      · simp only [uniqueDocuments, if_pos hk]
        exact ih seen h hs
    · simp only [uniqueDocuments, if_neg hk, List.map_cons]
      rcases List.mem_cons.mp hd with h | h
      · rw [h]; exact List.mem_cons_self _ _
      · by_cases hkey : docKey d = docKey d0
        · rw [hkey]; exact List.mem_cons_self _ _
        · refine List.mem_cons_of_mem _ (ih (docKey d0 :: seen) h ?_)
          intro hmem
          rcases List.mem_cons.mp hmem with h2 | h2
          · exact hkey h2
          · exact hs h2

lemma uniqueDocuments_first (seen : List String) (docs : List Doc) (d' : Doc)
    (hd : d' ∈ uniqueDocuments seen docs) :
    docs.find? (fun d => decide (docKey d = docKey d')) = some d' := by
  induction docs generalizing seen with
  | nil => simp [uniqueDocuments] at hd
  | cons d0 ds ih =>
    by_cases hk : docKey d0 ∈ seen
    · simp only [uniqueDocuments, if_pos hk] at hd
      have hne : docKey d0 ≠ docKey d' := by
        intro he
        exact uniqueDocuments_key_not_seen seen ds d' hd (he ▸ hk)
      rw [List.find?_cons_of_neg _ (by simpa using hne)]
      exact ih seen hd
    · simp only [uniqueDocuments, if_neg hk] at hd
      rcases List.mem_cons.mp hd with h | h
      · rw [← h]
        rw [List.find?_cons_of_pos _ (by simp)]
      · have hne : docKey d0 ≠ docKey d' := by
          intro he
          have h2 := uniqueDocuments_key_not_seen _ _ _ h
          exact h2 (he ▸ List.mem_cons_self _ _)
        rw [List.find?_cons_of_neg _ (by simpa using hne)]
        exact ih (docKey d0 :: seen) h

/-! ### Message normalizer lemmas -/

lemma normalizeMessage_kwargs (m : Msg) :
    (normalizeMessage m).additionalKwargs
      = m.additionalKwargs.filter (fun p => p.fst ≠ "name") := by
  unfold normalizeMessage
  split_ifs <;> rfl

lemma normalizeMessage_content (m : Msg) : (normalizeMessage m).content = m.content := by
  unfold normalizeMessage
  split_ifs <;> rfl

lemma normalizeMessage_msgType (m : Msg) :
    (normalizeMessage m).msgType = if m.msgType = "ai" then "ai" else "human" := by
  unfold normalizeMessage
  split_ifs <;> simp_all

lemma normalizeMessage_idem (m : Msg) :
    normalizeMessage (normalizeMessage m) = normalizeMessage m := by
  unfold normalizeMessage
  split_ifs <;> simp_all [List.filter_filter]

/-! ### Concrete inputs used by the witnesses -/

/-- Sample document: reportA.pdf, page 3. -/
def docA : Doc :=
  { pageContent := "alpha", source := some "reportA.pdf", filename := none, pageNumber := some 3 }

/-- Sample document with the same (source, page) identity as `docA`. -/
def docB : Doc :=
  { pageContent := "beta", source := some "reportA.pdf", filename := none, pageNumber := some 3 }

/-- Sample document with a distinct identity. -/
def docC : Doc :=
  { pageContent := "gamma", source := some "reportB.pdf", filename := none, pageNumber := none }

/-- Sample retriever returning three documents, two of which share an identity. -/
def retrieverEx : String → List Doc := fun _ => [docA, docB, docC]

/-- Sample chat model returning a fixed assistant turn. -/
def modelEx : ChatModel := fun _ => aiMessage "Paris is the capital of France." []

/-- Sample initial state for the direct-answer scenario. -/
def stateEx : AgentState :=
  { query := "What is the capital of France?", route := some "direct",
    documents := [], messages := [] }

/-- Sample message whose role is neither human nor assistant and whose
metadata carries a `name` key. -/
def msgEx : Msg :=
  { msgType := "system", content := "hello",
    additionalKwargs := [("name", "bot"), ("id", "1")] }

/-! ### The claims -/

/-- C1: for every retrieved document list, the Retrieval Node's deduplication
returns a subsequence of the input (relative order preserved), its documents
have pairwise distinct (source, page) identities, every identity occurring in
the input is represented, and each retained document is the first occurrence
of its identity in input order. -/
theorem retrieveDocuments_dedup_correct (retrieve : String → List Doc) (query : String)
    (d d' : Doc) (hd : d ∈ retrieve query) (hd' : d' ∈ retrieveDocuments retrieve query) :
    (retrieveDocuments retrieve query).Sublist (retrieve query) ∧
    ((retrieveDocuments retrieve query).map docIdentity).Nodup ∧
    docIdentity d ∈ (retrieveDocuments retrieve query).map docIdentity ∧
    (retrieve query).find? (fun d0 => decide (docIdentity d0 = docIdentity d')) = some d' := by
  simp only [retrieveDocuments] at hd' ⊢
  have hkeys := uniqueDocuments_nodup_keys [] (retrieve query)
  have hl : (uniqueDocuments [] (retrieve query)).Nodup := hkeys.of_map
  refine ⟨uniqueDocuments_sublist [] (retrieve query), ?_, ?_, ?_⟩
  · refine (List.nodup_map_iff_inj_on hl).mpr ?_
    intro x hx y hy hxy
    exact (List.nodup_map_iff_inj_on hl).mp hkeys x hx y hy ((docIdentity_eq_iff x y).mp hxy)
  · have hcov := uniqueDocuments_covers [] (retrieve query) d hd (by simp)
    rcases List.mem_map.mp hcov with ⟨d2, hd2, hkey⟩
    exact List.mem_map.mpr ⟨d2, hd2, (docIdentity_eq_iff d2 d).mpr hkey⟩
  · have hfirst := uniqueDocuments_first [] (retrieve query) d' hd'
    have hpred : (fun d0 => decide (docIdentity d0 = docIdentity d'))
        = (fun d0 => decide (docKey d0 = docKey d')) := by
      funext d0
      exact decide_eq_decide.mpr (docIdentity_eq_iff d0 d')
    rw [hpred]
    exact hfirst

/-- Witness for C1 at the sample retriever: `docB` duplicates `docA`, the
output is a subsequence with distinct identities covering the input, and the
retained representative of the shared identity is `docA`, its first
occurrence. -/
theorem retrieveDocuments_dedup_correct_witness :
    (retrieveDocuments retrieverEx "q").Sublist (retrieverEx "q") ∧
    ((retrieveDocuments retrieverEx "q").map docIdentity).Nodup ∧
    docIdentity docB ∈ (retrieveDocuments retrieverEx "q").map docIdentity ∧
    (retrieverEx "q").find? (fun d0 => decide (docIdentity d0 = docIdentity docA)) = some docA :=
  retrieveDocuments_dedup_correct retrieverEx "q" docB docA (by decide) (by decide)

/-- C2 counterexample: a set-but-empty `route` is falsy in JavaScript, so the
dispatch raises the route-not-set error, not the invalid-route error the
claim requires for every set-but-unrecognized value. -/
theorem routeQuery_empty_route_counterexample :
    routeQuery (some "") = Except.error RouteError.routeNotSet ∧
    RouteError.routeNotSet ≠ RouteError.invalidRoute := by
  constructor
  · simp [routeQuery]
  · decide

/-- C2 (amended): dispatch is a pure function of `route`: `retrieve` selects
the retrieval node, `direct` the direct-answer node, an unset or empty
(falsy) route fails with the route-not-set error, any other value fails with
the invalid-route error, and a successful dispatch only ever happens for
`retrieve` or `direct`. -/
theorem routeQuery_dispatch_amended (s : String) (r : Option String) (n : String)
    (hs0 : s ≠ "") (hs1 : s ≠ "retrieve") (hs2 : s ≠ "direct")
    (hok : routeQuery r = Except.ok n) :
    routeQuery none = Except.error RouteError.routeNotSet ∧
    routeQuery (some "") = Except.error RouteError.routeNotSet ∧
    routeQuery (some "retrieve") = Except.ok "retrieveDocuments" ∧
    routeQuery (some "direct") = Except.ok "directAnswer" ∧
    routeQuery (some s) = Except.error RouteError.invalidRoute ∧
    ((r = some "retrieve" ∧ n = "retrieveDocuments")
      ∨ (r = some "direct" ∧ n = "directAnswer")) := by
  refine ⟨rfl, by simp [routeQuery], by simp [routeQuery], by simp [routeQuery], ?_, ?_⟩
  · simp [routeQuery, hs0, hs1, hs2]
  · cases r with
    | none => simp [routeQuery] at hok
    | some v =>
      by_cases h0 : v = ""
      · subst h0; simp [routeQuery] at hok
      · by_cases h1 : v = "retrieve"
        · subst h1
          simp [routeQuery] at hok
          exact Or.inl ⟨rfl, hok.symm⟩
        · by_cases h2 : v = "direct"
          · subst h2
            simp [routeQuery] at hok
            exact Or.inr ⟨rfl, hok.symm⟩
          · simp [routeQuery, h0, h1, h2] at hok

/-- Witness for the amended C2 at the unrecognized value "other" and the
successful dispatch of "retrieve". -/
theorem routeQuery_dispatch_amended_witness :
    routeQuery none = Except.error RouteError.routeNotSet ∧
    routeQuery (some "") = Except.error RouteError.routeNotSet ∧
    routeQuery (some "retrieve") = Except.ok "retrieveDocuments" ∧
    routeQuery (some "direct") = Except.ok "directAnswer" ∧
    routeQuery (some "other") = Except.error RouteError.invalidRoute ∧
    ((some "retrieve" = some "retrieve" ∧ "retrieveDocuments" = "retrieveDocuments")
      ∨ (some "retrieve" = some "direct" ∧ "retrieveDocuments" = "directAnswer")) :=
  routeQuery_dispatch_amended "other" (some "retrieve") "retrieveDocuments"
    (by decide) (by decide) (by decide) (by simp [routeQuery])

/-- C3: the Generation Node invokes the model on the normalized prior
`messages` history extended with one human turn holding the fully-rendered
response prompt, while the update it returns for `messages` appends a human
turn holding the original unformatted query followed by the model's response
turn. -/
theorem generateResponse_model_input_and_update (model : ChatModel)
    (render : String → String → String) (formatDocs : List Doc → String)
    (state : AgentState) :
    (generateResponse model render formatDocs state).1
      = normalizeMessages
          (state.messages
            ++ [humanMessage (render state.query (formatDocs state.documents)) []]) ∧
    (generateResponse model render formatDocs state).2
      = [humanMessage state.query [],
         model (generateResponse model render formatDocs state).1] ∧
    (applyMessagesUpdate state (generateResponse model render formatDocs state).2).messages
      = state.messages
        ++ [humanMessage state.query [],
            model (normalizeMessages (state.messages
              ++ [humanMessage (render state.query (formatDocs state.documents)) []]))] :=
  ⟨rfl, rfl, rfl⟩

/-- C4: the Direct-Answer Node appends exactly two turns — the original human
query turn, then one assistant response turn — and leaves `documents`,
`route` and `query` unchanged; no retriever is involved in its definition. -/
theorem answerQueryDirectly_frame (model : ChatModel) (state : AgentState)
    (hmodel : ∀ input, (model input).msgType = "ai") :
    (applyMessagesUpdate state (answerQueryDirectly model state.query)).messages
      = state.messages
        ++ [humanMessage state.query [],
            model (normalizeMessages [humanMessage state.query []])] ∧
    (answerQueryDirectly model state.query).length = 2 ∧
    (humanMessage state.query []).msgType = "human" ∧
    (model (normalizeMessages [humanMessage state.query []])).msgType = "ai" ∧
    (applyMessagesUpdate state (answerQueryDirectly model state.query)).documents
      = state.documents ∧
    (applyMessagesUpdate state (answerQueryDirectly model state.query)).route = state.route ∧
    (applyMessagesUpdate state (answerQueryDirectly model state.query)).query = state.query :=
  ⟨rfl, rfl, rfl, hmodel _, rfl, rfl, rfl⟩

/-- Witness for C4: the end-to-end direct scenario of the specification —
the query about the capital of France with an always-assistant model. -/
theorem answerQueryDirectly_frame_witness :
    (applyMessagesUpdate stateEx (answerQueryDirectly modelEx stateEx.query)).messages
      = stateEx.messages
        ++ [humanMessage stateEx.query [],
            modelEx (normalizeMessages [humanMessage stateEx.query []])] ∧
    (answerQueryDirectly modelEx stateEx.query).length = 2 ∧
    (humanMessage stateEx.query []).msgType = "human" ∧
    (modelEx (normalizeMessages [humanMessage stateEx.query []])).msgType = "ai" ∧
    (applyMessagesUpdate stateEx (answerQueryDirectly modelEx stateEx.query)).documents
      = stateEx.documents ∧
    (applyMessagesUpdate stateEx (answerQueryDirectly modelEx stateEx.query)).route
      = stateEx.route ∧
    (applyMessagesUpdate stateEx (answerQueryDirectly modelEx stateEx.query)).query
      = stateEx.query :=
  answerQueryDirectly_frame modelEx stateEx (fun _ => rfl)

/-- C5: normalization maps the input sequence turn by turn; each output turn
carries no `name` metadata key (so the key is removed when present and never
introduced) and its role is exactly `human` or `ai`, with every role other
than `ai` coerced to `human`. -/
theorem normalizeMessages_strip_and_coerce (ms : List Msg) (m : Msg) (hm : m ∈ ms) :
    normalizeMessages ms = ms.map normalizeMessage ∧
    ((normalizeMessage m).additionalKwargs.all fun p => decide (p.fst ≠ "name")) = true ∧
    ((normalizeMessage m).msgType = "human" ∨ (normalizeMessage m).msgType = "ai") ∧
    (normalizeMessage m).msgType = (if m.msgType = "ai" then "ai" else "human") := by
  refine ⟨rfl, ?_, ?_, normalizeMessage_msgType m⟩
  · rw [normalizeMessage_kwargs, List.all_eq_true]
    intro p hp
    exact (List.mem_filter.mp hp).2
  · rw [normalizeMessage_msgType]
    by_cases h : m.msgType = "ai" <;> simp [h]

/-- Witness for C5 at a system-role message carrying a `name` key. -/
theorem normalizeMessages_strip_and_coerce_witness :
    normalizeMessages [msgEx] = [msgEx].map normalizeMessage ∧
    ((normalizeMessage msgEx).additionalKwargs.all fun p => decide (p.fst ≠ "name")) = true ∧
    ((normalizeMessage msgEx).msgType = "human" ∨ (normalizeMessage msgEx).msgType = "ai") ∧
    (normalizeMessage msgEx).msgType = (if msgEx.msgType = "ai" then "ai" else "human") :=
  normalizeMessages_strip_and_coerce [msgEx] msgEx (List.mem_cons_self msgEx [])

/-- C6: the Message Normalizer is idempotent: normalizing a normalized
sequence yields the identical sequence. -/
theorem normalizeMessages_idempotent (ms : List Msg) :
    normalizeMessages (normalizeMessages ms) = normalizeMessages ms := by
  induction ms with
  | nil => rfl
  | cons m ms ih =>
    simp only [normalizeMessages, List.map_cons, List.map_map] at ih ⊢
    rw [normalizeMessage_idem, ih]

/-- C7: normalization changes only the role tag and the `name` metadata key:
the text content is kept, every non-`name` metadata entry of the input
survives, and every metadata entry of the output is a non-`name` entry of the
input. -/
theorem normalizeMessage_frame (m : Msg) (p q : String × String)
    (hp : p ∈ m.additionalKwargs) (hpn : p.fst ≠ "name")
    (hq : q ∈ (normalizeMessage m).additionalKwargs) :
    (normalizeMessage m).content = m.content ∧
    p ∈ (normalizeMessage m).additionalKwargs ∧
    q ∈ m.additionalKwargs ∧ q.fst ≠ "name" := by
  have hk := normalizeMessage_kwargs m
  refine ⟨normalizeMessage_content m, ?_, ?_, ?_⟩
  · rw [hk]
    exact List.mem_filter.mpr ⟨hp, by simpa using hpn⟩
  · rw [hk] at hq
    exact (List.mem_filter.mp hq).1
  · rw [hk] at hq
    simpa using (List.mem_filter.mp hq).2

/-- Witness for C7 at the sample system message: the `id` entry survives
normalization and is the only output entry. -/
theorem normalizeMessage_frame_witness :
    (normalizeMessage msgEx).content = msgEx.content ∧
    ("id", "1") ∈ (normalizeMessage msgEx).additionalKwargs ∧
    ("id", "1") ∈ msgEx.additionalKwargs ∧ ("id", "1").fst ≠ "name" :=
  normalizeMessage_frame msgEx ("id", "1") ("id", "1")
    (by decide) (by decide) (by decide)

/-- C8 counterexample: a document whose `source` metadata is absent but whose
`filename` is present gets the filename, not "unknown-source", as the source
component of its identity, contradicting the claim's blanket fallback. -/
theorem sourceComp_absent_counterexample :
    (Doc.mk "c" none (some "file.pdf") none).source = none ∧
    sourceComp (Doc.mk "c" none (some "file.pdf") none) = "file.pdf" ∧
    ("file.pdf" : String) ≠ "unknown-source" := by
  refine ⟨rfl, by decide, by decide⟩

/-- C8 (amended): the source component falls back to "unknown-source" when
both `source` and `filename` metadata are absent, the page component falls
back to "unknown-page" when the page metadata is absent, and two documents
lacking source, filename and page metadata share an identity, the second
being dropped by deduplication as a duplicate of the first. -/
theorem dedup_unknown_fallback (d e d1 d2 : Doc)
    (hds : d.source = none) (hdf : d.filename = none)
    (hep : e.pageNumber = none)
    (h1s : d1.source = none) (h1f : d1.filename = none) (h1p : d1.pageNumber = none)
    (h2s : d2.source = none) (h2f : d2.filename = none) (h2p : d2.pageNumber = none) :
    sourceComp d = "unknown-source" ∧
    pageComp e = "unknown-page" ∧
    docIdentity d1 = docIdentity d2 ∧
    uniqueDocuments [] [d1, d2] = [d1] := by
  have hkey : docKey d1 = docKey d2 := by
    simp [docKey, sourceComp, pageComp, truthyOr, h1s, h1f, h1p, h2s, h2f, h2p]
  refine ⟨by simp [sourceComp, truthyOr, hds, hdf], by simp [pageComp, hep], ?_, ?_⟩
  · simp [docIdentity, sourceComp, pageComp, truthyOr, h1s, h1f, h1p, h2s, h2f, h2p]
  · simp [uniqueDocuments, hkey]

/-- Witness for the amended C8 at two fully-underspecified documents. -/
theorem dedup_unknown_fallback_witness :
    sourceComp (Doc.mk "x" none none none) = "unknown-source" ∧
    pageComp (Doc.mk "x" none none none) = "unknown-page" ∧
    docIdentity (Doc.mk "x" none none none) = docIdentity (Doc.mk "y" none none none) ∧
    uniqueDocuments [] [Doc.mk "x" none none none, Doc.mk "y" none none none]
      = [Doc.mk "x" none none none] :=
  dedup_unknown_fallback (Doc.mk "x" none none none) (Doc.mk "x" none none none)
    (Doc.mk "x" none none none) (Doc.mk "y" none none none)
    rfl rfl rfl rfl rfl rfl rfl rfl rfl

/-- C9: the router node's state update depends only on the `route` field of
the structured response; the optional `directAnswer` field is never
consumed. -/
theorem checkQueryType_ignores_directAnswer (r1 r2 : RouterResponse)
    (h : r1.route = r2.route) : checkQueryType r1 = checkQueryType r2 := by
  simp [checkQueryType, h]

/-- Witness for C9: two responses agreeing on `route` but differing in
`directAnswer` produce the identical update. -/
theorem checkQueryType_ignores_directAnswer_witness :
    checkQueryType { route := Route.direct, directAnswer := none }
      = checkQueryType { route := Route.direct, directAnswer := some "Paris" } :=
  checkQueryType_ignores_directAnswer
    { route := Route.direct, directAnswer := none }
    { route := Route.direct, directAnswer := some "Paris" } rfl

/-- C10: the identity key is computed asymmetrically: a truthy `source` is
used as is, an empty-string `source` falls back to the `filename`, an
empty-string (or, with `source` empty, any falsy) `filename` falls back to
"unknown-source", whereas the page component keeps every present page number
— in particular page 0 yields "0", not "unknown-page". -/
theorem docKey_asymmetric_fallback (d e g k w : Doc) (s t : String) (n : Int)
    (hd1 : d.source = some "") (hd2 : d.filename = some s) (hs : s ≠ "")
    (he1 : e.source = some "") (he2 : e.filename = some "")
    (hg : g.pageNumber = some (0 : Int))
    (hkn : k.pageNumber = some n)
    (hw1 : w.source = some t) (ht : t ≠ "") :
    sourceComp d = s ∧
    sourceComp e = "unknown-source" ∧
    sourceComp w = t ∧
    pageComp g = "0" ∧
    pageComp g ≠ "unknown-page" ∧
    pageComp k = toString n := by
  refine ⟨?_, ?_, ?_, ?_, ?_, ?_⟩
  · simp [sourceComp, truthyOr, hd1, hd2, hs]
  · simp [sourceComp, truthyOr, he1, he2]
  · simp [sourceComp, truthyOr, hw1, ht]
  · simp [pageComp, hg]; rfl
  · simp [pageComp, hg]; decide
  · simp [pageComp, hkn]

/-- Witness for C10 at concrete documents: empty source with a filename,
empty source and empty filename, page number 0, and a truthy source. -/
theorem docKey_asymmetric_fallback_witness :
    sourceComp (Doc.mk "a" (some "") (some "file.pdf") none) = "file.pdf" ∧
    sourceComp (Doc.mk "b" (some "") (some "") none) = "unknown-source" ∧
    sourceComp (Doc.mk "c" (some "src.pdf") none none) = "src.pdf" ∧
    pageComp (Doc.mk "d" none none (some 0)) = "0" ∧
    pageComp (Doc.mk "d" none none (some 0)) ≠ "unknown-page" ∧
    pageComp (Doc.mk "e" none none (some 0)) = toString (0 : Int) :=
  docKey_asymmetric_fallback
    (Doc.mk "a" (some "") (some "file.pdf") none)
    (Doc.mk "b" (some "") (some "") none)
    (Doc.mk "d" none none (some 0))
    (Doc.mk "e" none none (some 0))
    (Doc.mk "c" (some "src.pdf") none none)
    "file.pdf" "src.pdf" 0
    rfl rfl (by decide) rfl rfl rfl rfl rfl (by decide)

end RetrievalGraph
